import Mathlib

/-!
Verification of the Reactive Multi-API LLM Routing Engine
(`backend/services/llm_routing_engine.py`, `backend/services/smart_api_manager.py`,
`backend/services/chunk_complexity_analyzer.py`).

Shallow embedding conventions:
* Python `time.time()` floats are modelled as rationals (`Rat`); every function
  that reads the clock takes the current time as an explicit argument.
* Python dict `self.usage_stats` is a total map `String → APIUsageStats`
  (the manager initialises one record per configured API, so lookups never miss).
* Python case-insensitive substring tests (`kw in error_lower`) are modelled by
  `inStr` over the character lists; `str.lower()` is `pyLower`.
* The `re.search(r'retry.after.?(\d+)', ...)` call is modelled char-by-char,
  including the greedy backtracking of `.?` (one wildcard char preferred).
* Backend adapter network calls and the wall clock are the only sources of
  nondeterminism in `route_and_execute`; they are supplied by a `RouteEnv`
  oracle indexed by the loop-iteration counter.
-/

set_option maxRecDepth 10000

namespace RoutingEngine

/-- `leadsWith p s` is true iff the char list `p` is a prefix of `s`
(used to model Python's `str.startswith` and as the anchored step of
substring search). -/
def leadsWith : List Char → List Char → Bool
  | [], _ => true
  | _ :: _, [] => false
  | a :: as, b :: bs => a == b && leadsWith as bs

/-- `hasSub n h` is true iff `n` occurs as a contiguous sublist of `h`
(Python's `n in h` on strings). -/
def hasSub (n : List Char) : List Char → Bool
  | [] => leadsWith n []
  | b :: bs => leadsWith n (b :: bs) || hasSub n bs

/-- Python `needle in hay` on strings. -/
def inStr (needle hay : String) : Bool := hasSub needle.toList hay.toList

/-- Python `str.lower()`: per-character case folding (the keyword tables are
ASCII, which `Char.toLower` folds exactly). -/
def pyLower (s : String) : String := ⟨s.data.map Char.toLower⟩

/-- Value of a leading run of decimal digits (Python `int` on the captured group). -/
def digitsVal : List Char → Nat → Nat
  | [], acc => acc
  | c :: cs, acc => if c.isDigit then digitsVal cs (acc * 10 + (c.toNat - 48)) else acc

/-- Leading maximal run of decimal digits. -/
def takeDigitRun : List Char → List Char
  | [] => []
  | c :: cs => if c.isDigit then c :: takeDigitRun cs else []

/-- Match of the regex `retry.after.?(\d+)` anchored at the head of `cs`:
literal "retry", one wildcard char, literal "after", at most one wildcard char
(greedy, i.e. one char is consumed if the rest still matches), then the
captured digit run.  Mirrors `re.search` semantics from
`SmartAPIManager._handle_api_error`. -/
def matchRetryHere (cs : List Char) : Option Nat :=
  if leadsWith ("retry".toList) cs then
    match cs.drop 5 with
    | [] => none
    | _ :: rest1 =>
      if leadsWith ("after".toList) rest1 then
        match rest1.drop 5 with
        | [] => none
        | c :: rest3 =>
          let greedy := takeDigitRun rest3
          if greedy.isEmpty then
            if c.isDigit then some (digitsVal (c :: takeDigitRun rest3) 0) else none
          else some (digitsVal greedy 0)
      else none
  else none

/-- `re.search`: scan positions left to right, first anchored match wins. -/
def searchRetryNum : List Char → Option Nat
  | [] => none
  | c :: cs =>
    match matchRetryHere (c :: cs) with
    | some n => some n
    | none => searchRetryNum cs

/-- `APIUsageStats` dataclass of `smart_api_manager.py` (field for field). -/
structure APIUsageStats where
  calls_made : Nat := 0
  successful_calls : Nat := 0
  failed_calls : Nat := 0
  last_call_time : Rat := 0
  last_error : Option String := none
  is_available : Bool := true
  rate_limit_reset_time : Rat := 0
  consecutive_failures : Nat := 0
  deriving DecidableEq

/-- The `self.usage_stats` dict, as a total map (one record per API name). -/
abbrev UsageStatsMap := String → APIUsageStats

/-- Freshly initialised statistics record (dataclass defaults). -/
def initialStats : APIUsageStats := {}

/-- All-fresh usage map (`_initialize_usage_stats`). -/
def initialUsage : UsageStatsMap := fun _ => initialStats

/-- Point update of the usage map (Python mutates the record in place). -/
def setStat (m : UsageStatsMap) (name : String) (s : APIUsageStats) : UsageStatsMap :=
  fun a => if a = name then s else m a

/-- The five configured backend identifiers, in the dict-insertion order of
`SmartAPIManager.api_configs` (which coincides with ascending `priority`
1,2,3,4,5, so the stable `available.sort(key=priority)` in
`_get_available_apis` is the identity on the traversal order). -/
def apiNames : List String :=
  ["google_primary", "google_secondary", "groq", "together_ai", "openrouter"]

/-- The `supports_indic` flag of each entry of `api_configs`
(true exactly for the two Google backends). -/
def supportsIndic : String → Bool
  | "google_primary" => true
  | "google_secondary" => true
  | _ => false

/-- Rate-limit keyword list of `_handle_api_error`. -/
def rateLimitKeywords : List String :=
  ["429", "rate limit", "quota", "exceeded", "too many requests",
   "rate_limit_exceeded", "quota_exceeded", "limit exceeded"]

/-- Authentication keyword list of `_handle_api_error`. -/
def authKeywords : List String :=
  ["api key", "authentication", "unauthorized", "401", "403", "invalid key"]

/-- Temporary-service keyword list of `_handle_api_error`. -/
def transientKeywords : List String :=
  ["500", "502", "503", "504", "timeout", "connection", "service unavailable"]

/-- Python `any(keyword in error_lower for keyword in kws)`. -/
def anyKeyword (kws : List String) (el : String) : Bool := kws.any (fun k => inStr k el)

/-- `SmartAPIManager._handle_api_error`: classify a (non-empty) error message,
mark the backend unavailable, and set its cooldown expiry.  `stats` is the
record AFTER `record_api_call` incremented `consecutive_failures`. -/
def handleApiError (api_name : String) (error_message : String) (current_time : Rat)
    (stats : APIUsageStats) : APIUsageStats :=
  let error_lower := pyLower error_message
  if anyKeyword rateLimitKeywords error_lower then
    let s := { stats with is_available := false }
    if inStr "retry-after" error_lower then
      match searchRetryNum error_lower.toList with
      | some retry_seconds =>
          { s with rate_limit_reset_time := current_time + (retry_seconds : Rat) + 10 }
      | none => { s with rate_limit_reset_time := current_time + 300 }
    else if inStr "google" api_name then
      { s with rate_limit_reset_time := current_time + 70 }
    else if inStr "groq" api_name then
      { s with rate_limit_reset_time := current_time + 90 }
    else
      { s with rate_limit_reset_time := current_time + 180 }
  else if anyKeyword authKeywords error_lower then
    { stats with is_available := false, rate_limit_reset_time := current_time + 3600 }
  else if anyKeyword transientKeywords error_lower then
    { stats with is_available := false, rate_limit_reset_time := current_time + 120 }
  else if 3 ≤ stats.consecutive_failures then
    { stats with is_available := false, rate_limit_reset_time := current_time + 300 }
  else
    { stats with is_available := false, rate_limit_reset_time := current_time + 60 }

/-- `SmartAPIManager.record_api_call`.  `error_message` is `none` for the
Python default `None`; the classification runs only when the message is
truthy (non-`None` and non-empty), exactly as `if error_message:` does. -/
def record_api_call (m : UsageStatsMap) (api_name : String) (success : Bool)
    (error_message : Option String) (current_time : Rat) : UsageStatsMap :=
  let stats0 := m api_name
  let stats1 := { stats0 with
    calls_made := stats0.calls_made + 1
    last_call_time := current_time }
  if success then
    setStat m api_name { stats1 with
      successful_calls := stats1.successful_calls + 1
      consecutive_failures := 0
      last_error := none
      is_available := true }
  else
    let stats2 := { stats1 with
      failed_calls := stats1.failed_calls + 1
      consecutive_failures := stats1.consecutive_failures + 1
      last_error := error_message }
    match error_message with
    | some msg =>
        if msg = "" then setStat m api_name stats2
        else setStat m api_name (handleApiError api_name msg current_time stats2)
    | none => setStat m api_name stats2

/-- `SmartAPIManager._is_api_currently_available`: lazily re-enable when the
cooldown has expired; returns the answer together with the (possibly healed)
usage map. -/
def isApiCurrentlyAvailable (m : UsageStatsMap) (api_name : String) (current_time : Rat) :
    Bool × UsageStatsMap :=
  let stats := m api_name
  if stats.is_available then (true, m)
  else if stats.rate_limit_reset_time ≤ current_time then
    (true, setStat m api_name { stats with is_available := true, consecutive_failures := 0 })
  else
    (false, m)

/-- `SmartAPIManager.emergency_reset` for one backend. -/
def emergencyReset (m : UsageStatsMap) (api_name : String) : UsageStatsMap :=
  let stats := m api_name
  setStat m api_name { stats with
    is_available := true
    last_error := none
    consecutive_failures := 0
    rate_limit_reset_time := 0 }

/-- `SmartAPIManager.force_enable_all_apis`: emergency-reset every backend. -/
def force_enable_all_apis (m : UsageStatsMap) : UsageStatsMap :=
  apiNames.foldl emergencyReset m

/-- One traversal step of `_get_available_apis`: keep the APIs that have a key
and are currently available, threading the lazily-healed usage map. -/
def getAvailableApisAux (keys : String → Bool) (now : Rat) :
    List String → UsageStatsMap → List String × UsageStatsMap
  | [], m => ([], m)
  | a :: rest, m =>
    if keys a then
      let p := isApiCurrentlyAvailable m a now
      let q := getAvailableApisAux keys now rest p.2
      (if p.1 then a :: q.1 else q.1, q.2)
    else
      getAvailableApisAux keys now rest m

/-- `SmartAPIManager._get_available_apis` / `get_available_apis`: traversal of
`api_configs` in insertion order; the final stable sort by priority is the
identity because the insertion order already is ascending priority. -/
def get_available_apis (keys : String → Bool) (m : UsageStatsMap) (now : Rat) :
    List String × UsageStatsMap :=
  getAvailableApisAux keys now apiNames m

/-- Per-API score of `_choose_least_used_api`:
`consecutive_failures * 1000 + (now - last_call_time) / 3600`. -/
def apiScore (m : UsageStatsMap) (now : Rat) (a : String) : Rat :=
  ((m a).consecutive_failures : Rat) * 1000 + (now - (m a).last_call_time) / 3600

/-- First element of the list attaining the minimal score (Python sorts the
scored pairs with a stable ascending sort and takes the head). -/
def argminScore (m : UsageStatsMap) (now : Rat) : List String → Option String
  | [] => none
  | a :: rest =>
      some (rest.foldl (fun b x => if apiScore m now x < apiScore m now b then x else b) a)

/-- `SmartAPIManager._choose_least_used_api`. -/
def choose_least_used_api (m : UsageStatsMap) (now : Rat) (api_list : List String) :
    Option String :=
  match api_list with
  | [] => none
  | [a] => some a
  | l => argminScore m now l

/-- The fields of a `ChunkComplexityAnalyzer.analyze_chunk` result that the
routing engine reads (`has_indic_script`, `priority`, `complexity`). -/
structure ChunkAnalysis where
  has_indic_script : Bool
  priority : String
  complexity : String
  deriving DecidableEq

/-- Python `api.startswith('google')`. -/
def isGoogleApi (a : String) : Bool := leadsWith ("google".toList) a.toList

/-- `LLMRoutingEngine._select_best_from_remaining`. -/
def select_best_from_remaining (m : UsageStatsMap) (now : Rat)
    (remaining_apis : List String) (analysis : ChunkAnalysis) : Option String :=
  if remaining_apis.isEmpty then none
  else
    let indicGoogle := remaining_apis.filter isGoogleApi
    if analysis.has_indic_script && !indicGoogle.isEmpty then
      choose_least_used_api m now indicGoogle
    else if analysis.priority == "high" || analysis.complexity == "complex" then
      let google_apis := remaining_apis.filter isGoogleApi
      if !google_apis.isEmpty then choose_least_used_api m now google_apis
      else
        let powerful_apis := remaining_apis.filter (fun a => a == "together_ai" || a == "groq")
        if !powerful_apis.isEmpty then choose_least_used_api m now powerful_apis
        else choose_least_used_api m now remaining_apis
    else choose_least_used_api m now remaining_apis

/-- Quota/rate-limit keyword list of `_should_retry_error` (switch backend). -/
def retrySwitchKeywords : List String :=
  ["quota", "exceeded", "429", "rate limit", "billing", "quota_exceeded",
   "insufficient_quota"]

/-- Transient keyword list of `_should_retry_error` (retry consumes a slot). -/
def retrySameKeywords : List String :=
  ["timeout", "connection", "network", "502", "503", "504"]

/-- `LLMRoutingEngine._should_retry_error` (the `api_name` argument only feeds
log output and is dropped). -/
def should_retry_error (error_message : String) : Bool :=
  if error_message == "" then false
  else
    let error_lower := pyLower error_message
    if anyKeyword retrySwitchKeywords error_lower then false
    else if anyKeyword retrySameKeywords error_lower then true
    else false

/-! ### Language detection (`chunk_complexity_analyzer.py`) -/

/-- Number of characters of `cs` whose code point lies in `[lo, hi]`
(`len(pattern.findall(text))` for a single-char-class regex). -/
def countRangeChars (lo hi : Nat) (cs : List Char) : Nat :=
  (cs.filter (fun c => decide (lo ≤ c.toNat ∧ c.toNat ≤ hi))).length

/-- Helper: number of maximal runs of ASCII letters of length ≥ 2, carrying
the length of the current run. -/
def countLetterRunsAux : Nat → List Char → Nat
  | runLen, [] => if 2 ≤ runLen then 1 else 0
  | runLen, c :: cs =>
    if c.isAlpha then countLetterRunsAux (runLen + 1) cs
    else (if 2 ≤ runLen then 1 else 0) + countLetterRunsAux 0 cs

/-- `len(re.findall(r'[a-zA-Z]{2,}', text))`: the greedy regex returns one
match per maximal ASCII-letter run of length at least 2 (the `krutidev`
pattern of `ChunkComplexityAnalyzer.indic_scripts`). -/
def countLetterRuns (cs : List Char) : Nat := countLetterRunsAux 0 cs

/-- Helper for `len(text.split())`, carrying whether the previous character was
part of a word. -/
def countWordsAux : Bool → List Char → Nat
  | _, [] => 0
  | inWord, c :: cs =>
    if c.isWhitespace then countWordsAux false cs
    else (if inWord then 0 else 1) + countWordsAux true cs

/-- `len(text.split())`: number of maximal non-whitespace runs. -/
def pyWordCount (s : String) : Nat := countWordsAux false s.toList

/-- The `indic_matches` dict of `_detect_language`: per-script
`len(pattern.findall(text))`, keeping only strictly positive counts, in the
dict-insertion order hindi, urdu, bengali, krutidev. -/
def indicCounts (s : String) : List (String × Nat) :=
  let cs := s.toList
  ([("hindi", countRangeChars 0x900 0x97F cs),
    ("urdu", countRangeChars 0x600 0x6FF cs),
    ("bengali", countRangeChars 0x980 0x9FF cs),
    ("krutidev", countLetterRuns cs)]).filter (fun p => decide (0 < p.2))

/-- Python `max(indic_matches, key=indic_matches.get)`: first key (in
iteration order) attaining the maximal count. -/
def firstMax : List (String × Nat) → Option (String × Nat)
  | [] => none
  | p :: rest => some (rest.foldl (fun b x => if b.2 < x.2 then x else b) p)

/-- Result shape of `_detect_language` (the `indic_matches` dict itself is
returned too but never read by the engine). -/
structure LanguageInfo where
  primary_language : String
  confidence : Rat
  has_indic_script : Bool
  deriving DecidableEq

/-- `ChunkComplexityAnalyzer._detect_language`.  The Python
`round(confidence, 2)` is a float-formatting step dropped here (no claim
depends on the confidence value of the indic branch); division by a zero word
count cannot occur in the indic branch because a positive match count forces a
non-whitespace character, hence at least one word. -/
def detect_language (text : String) : LanguageInfo :=
  match firstMax (indicCounts text) with
  | some pb =>
      { primary_language := pb.1
        confidence := min ((pb.2 : Rat) / (pyWordCount text : Rat) * 10) 1
        has_indic_script := true }
  | none =>
      { primary_language := "en", confidence := 8 / 10, has_indic_script := false }

/-- The language-related fields of `ChunkComplexityAnalyzer.analyze_chunk`:
lines 78–80 copy `primary_language` (as `language`), `confidence` (as
`language_confidence`) and `has_indic_script` verbatim from
`_detect_language`; the `except` fallback of `analyze_chunk` is unreachable
for this total computation. -/
def analyze_chunk_language (chunk : String) : LanguageInfo := detect_language chunk

/-! ### The routing loop (`LLMRoutingEngine.route_and_execute`) -/

/-- Outcome of one backend adapter invocation, as normalised by the
`_execute_*` helpers: either generated content plus the model name, or an
error string. -/
inductive ExecOutcome where
  | ok (content : String) (model : String)
  | fail (error : String)
  deriving DecidableEq

/-- The result dict of `route_and_execute` (and of the adapters): optional
fields model the presence or absence of the corresponding dict keys. -/
structure RouteResult where
  success : Bool
  content : Option String := none
  api_used : Option String := none
  model : Option String := none
  error : Option String := none
  tried_apis : List String := []
  attempts_made : Option Nat := none
  deriving DecidableEq

/-- Adapter result dict for a given backend (`_execute_with_api`): every
success dict carries `content`, `api_used` and `model`; every failure dict
carries `error` (and the adapters also attach `api_used`). -/
def execResultOf (api : String) : ExecOutcome → RouteResult
  | .ok content model =>
      { success := true, content := some content, api_used := some api, model := some model }
  | .fail e => { success := false, error := some e, api_used := some api }

/-- Observable actions of one `route_and_execute` call: an emergency cooldown
reset, or one backend invocation with its success flag. -/
inductive RouteEvent where
  | reset
  | invoke (api : String) (success : Bool)
  deriving DecidableEq

/-- Environment oracle: wall-clock reading and adapter outcome for each
iteration of the retry loop (the only nondeterminism of the Python code). -/
structure RouteEnv where
  tick : Nat → Rat
  outcome : Nat → ExecOutcome

/-- Lines 70–89 of `route_and_execute`: compute
`remaining = available − tried`; if empty and not yet in emergency mode,
force-clear all cooldowns once and recompute.  Returns the remaining list,
the new emergency flag, the threaded usage map, and whether a reset happened.
An empty returned list means the "All APIs exhausted" exit fires. -/
def refreshRemaining (keys : String → Bool) (now : Rat) (tried : List String)
    (emergency_mode : Bool) (m : UsageStatsMap) :
    List String × Bool × UsageStatsMap × Bool :=
  let p := get_available_apis keys m now
  let remaining := p.1.filter (fun a => !(tried.contains a))
  if remaining.isEmpty && !emergency_mode then
    let m2 := force_enable_all_apis p.2
    let q := get_available_apis keys m2 now
    (q.1.filter (fun a => !(tried.contains a)), true, q.2, true)
  else
    (remaining, emergency_mode, p.2, false)

/-- The `while attempt_count < max_retries` loop of `route_and_execute`,
with an explicit fuel (the loop terminates because each pass either returns,
increments `attempt_count`, or adds a fresh backend to `tried`;
`routeLoop_fuel_eq` and `route_and_execute_fuel_independent` prove any fuel
above the termination measure gives the same result).  `k` counts loop passes and indexes the oracle.
The returned event list extends `trace` with this call's actions.  Exact
Python message strings are kept where a claim inspects them; the list inside
the exhausted message is rendered with `toString` instead of Python's `repr`,
and the Python `tried_apis` set is kept in insertion order, fixing one of the
admissible orders of `list(tried_apis)`. -/
def routeLoop (keys : String → Bool) (env : RouteEnv) (analysis : ChunkAnalysis)
    (max_retries : Nat) :
    Nat → Nat → Nat → List String → Bool → UsageStatsMap → List RouteEvent →
    RouteResult × List RouteEvent
  | 0, _, attempt_count, tried, _, _, trace =>
    -- out of fuel: unreachable for adequate fuel; shaped like the loop-exit result
    ({ success := false
       error := some ("All APIs failed after " ++ toString attempt_count ++ " attempts")
       tried_apis := tried
       attempts_made := some attempt_count }, trace)
  | fuel + 1, k, attempt_count, tried, emergency_mode, m, trace =>
    if attempt_count < max_retries then
      let now := env.tick k
      let r := refreshRemaining keys now tried emergency_mode m
      let trace2 := if r.2.2.2 then trace ++ [RouteEvent.reset] else trace
      if r.1.isEmpty then
        ({ success := false
           error := some ("All APIs exhausted after " ++ toString attempt_count ++
             " attempts. Tried: " ++ toString tried)
           tried_apis := tried }, trace2)
      else
        match select_best_from_remaining r.2.2.1 now r.1 analysis with
        | none =>
          -- unreachable: selection from a non-empty list always yields an API
          ({ success := false, error := some "selection failed", tried_apis := tried }, trace2)
        | some selected =>
          let tried2 := tried ++ [selected]
          let result := execResultOf selected (env.outcome k)
          let error_message := (result.error).getD ""
          let m3 := record_api_call r.2.2.1 selected result.success (some error_message) now
          let trace3 := trace2 ++ [RouteEvent.invoke selected result.success]
          if result.success then
            ({ result with
               attempts_made := some (attempt_count + 1)
               tried_apis := tried2 }, trace3)
          else if should_retry_error error_message then
            routeLoop keys env analysis max_retries fuel (k + 1) (attempt_count + 1)
              tried2 r.2.1 m3 trace3
          else
            routeLoop keys env analysis max_retries fuel (k + 1) attempt_count
              tried2 r.2.1 m3 trace3
    else
      ({ success := false
         error := some ("All APIs failed after " ++ toString attempt_count ++ " attempts")
         tried_apis := tried
         attempts_made := some attempt_count }, trace)

/-- `LLMRoutingEngine.route_and_execute` on a fresh manager: run the retry loop
from an all-fresh usage map with fuel that the loop can never exhaust
(each pass increments `attempt_count` (bounded by `max_retries`) or tries a
new backend (bounded by the five configured names)). -/
def route_and_execute (keys : String → Bool) (env : RouteEnv) (analysis : ChunkAnalysis)
    (emergency_mode : Bool) (max_retries : Nat) : RouteResult × List RouteEvent :=
  routeLoop keys env analysis max_retries (max_retries + apiNames.length + 1) 0 0 []
    emergency_mode initialUsage []

/-! ### Derived predicates used by the claims -/

/-- No successful invocation occurs in the trace. -/
def noSuccessInvoke (tr : List RouteEvent) : Prop :=
  ∀ a, RouteEvent.invoke a true ∉ tr

/-- Any successful invocation in the trace is its final event ("once an attempt
succeeds no further backend is invoked"). -/
def successOnlyLast (tr : List RouteEvent) : Prop :=
  ∀ pre a suf, tr = pre ++ RouteEvent.invoke a true :: suf → suf = []

/-- Number of emergency resets recorded in the trace. -/
def resetCount (tr : List RouteEvent) : Nat :=
  (tr.filter (fun e => e == RouteEvent.reset)).length

/-- Invariant bundle for one `routeLoop` run, relative to the starting
emergency flag and event trace: attempts bounded by `max_retries`, distinct
tried APIs, a successful invocation ends the loop, at most one emergency
reset beyond the starting trace, and the result shape of every return site
(`content`/`api_used`/`model` present iff success, `error` present iff
failure, `attempts_made` absent only in the all-APIs-exhausted failure). -/
def masterInv (max_retries : Nat) (emergency_mode : Bool) (trace : List RouteEvent)
    (out : RouteResult × List RouteEvent) : Prop :=
  (∀ n, out.1.attempts_made = some n → n ≤ max_retries) ∧
  out.1.tried_apis.Nodup ∧
  successOnlyLast out.2 ∧
  resetCount out.2 ≤ resetCount trace + (if emergency_mode then 0 else 1) ∧
  (out.1.success = true → out.1.content.isSome ∧ out.1.api_used.isSome ∧
    out.1.model.isSome ∧ out.1.error = none ∧ (out.1.attempts_made).isSome) ∧
  (out.1.success = false → (out.1.error).isSome ∧ out.1.content = none ∧
    out.1.api_used = none ∧ out.1.model = none) ∧
  (out.1.attempts_made = none →
    out.1.success = false ∧ inStr "All APIs exhausted" ((out.1.error).getD "") = true)

/-- The rate-limit keyword list as the specification states it (the three
extra entries of the code's list are redundant: each contains `"exceeded"`
or `"quota"` as a substring). -/
def specRateKeywords : List String := ["429", "rate limit", "quota", "exceeded", "too many requests"]

/-- Cooldown expiry demanded of a rate-limited backend by the (amended)
specification: parsed retry-after value + 10s buffer when parseable, 300s when
"retry-after" appears without a parseable value, else the family default. -/
def rateLimitCooldownExpiry (api_name : String) (error_lower : String) (t : Rat) : Rat :=
  if inStr "retry-after" error_lower then
    match searchRetryNum error_lower.toList with
    | some n => t + (n : Rat) + 10
    | none => t + 300
  else if inStr "google" api_name then t + 70
  else if inStr "groq" api_name then t + 90
  else t + 180

/-- Full cooldown-policy table for a classified failure: first matching
category wins, in the order rate-limit, authentication, transient,
repeated-failure, unknown.  `cfAfter` is `consecutive_failures` after the
increment done by `record_api_call`. -/
def cooldownExpiry (api_name : String) (error_lower : String) (cfAfter : Nat) (t : Rat) : Rat :=
  if anyKeyword specRateKeywords error_lower then rateLimitCooldownExpiry api_name error_lower t
  else if anyKeyword authKeywords error_lower then t + 3600
  else if anyKeyword transientKeywords error_lower then t + 120
  else if 3 ≤ cfAfter then t + 300
  else t + 60

/-! ### Concrete scenario inputs -/

/-- Key environment where only the primary Google backend and GROQ hold
credentials. -/
def twoKeys : String → Bool := fun a => a == "google_primary" || a == "groq"

/-- Key environment with no credentials at all. -/
def noKeys : String → Bool := fun _ => false

/-- A medium-priority, non-indic analysis (plain English prose). -/
def mediumAnalysis : ChunkAnalysis :=
  { has_indic_script := false, priority := "medium", complexity := "simple" }

/-- A critical-priority analysis of a chunk carrying Indic script. -/
def indicAnalysis : ChunkAnalysis :=
  { has_indic_script := true, priority := "critical", complexity := "simple" }

/-- Oracle: the clock reads 0 and the first invocation fails with a 500-class
message, after which invocations succeed. -/
def env500 : RouteEnv :=
  { tick := fun _ => 0
    outcome := fun k =>
      if k == 0 then ExecOutcome.fail "500 internal server error"
      else ExecOutcome.ok "summary text" "model-m" }

/-- Oracle: the first invocation times out, after which invocations succeed. -/
def envTimeout : RouteEnv :=
  { tick := fun _ => 0
    outcome := fun k =>
      if k == 0 then ExecOutcome.fail "timeout while connecting"
      else ExecOutcome.ok "summary text" "model-m" }

/-- Oracle: the first invocation hits a quota error, after which invocations
succeed. -/
def envQuota : RouteEnv :=
  { tick := fun _ => 0
    outcome := fun k =>
      if k == 0 then ExecOutcome.fail "insufficient_quota"
      else ExecOutcome.ok "summary text" "model-m" }

/-- Oracle whose invocations always fail with an unclassifiable message. -/
def envAllFail : RouteEnv :=
  { tick := fun _ => 0, outcome := fun _ => ExecOutcome.fail "boom" }

/-! ### String-search infrastructure lemmas -/

theorem leadsWith_iff {p s : List Char} : leadsWith p s = true ↔ p <+: s := by
  induction p generalizing s with
  | nil => simp [leadsWith, List.nil_prefix]
  | cons a as ih =>
    cases s with
    | nil => simp [leadsWith, List.prefix_nil]
    | cons b bs => simp [leadsWith, List.cons_prefix_cons, ih]

theorem hasSub_iff {n h : List Char} : hasSub n h = true ↔ n <:+: h := by
  induction h with
  | nil => simp [hasSub, leadsWith_iff, List.infix_nil, List.prefix_nil]
  | cons b bs ih => simp [hasSub, leadsWith_iff, ih, List.infix_cons_iff]

theorem inStr_trans {a b c : String} (h1 : inStr a b = true) (h2 : inStr b c = true) :
    inStr a c = true :=
  hasSub_iff.mpr ((hasSub_iff.mp h1).trans (hasSub_iff.mp h2))

theorem leadsWith_append_self : ∀ p q : List Char, leadsWith p (p ++ q) = true := by
  intro p
  induction p with
  | nil => intro q; rfl
  | cons a as ih => intro q; simp [leadsWith, ih]

theorem hasSub_of_leadsWith {n h : List Char} (hl : leadsWith n h = true) :
    hasSub n h = true := by
  cases h with
  | nil => exact hl
  | cons b bs => simp [hasSub, hl]

theorem inStr_exhausted_message (x : String) :
    inStr "All APIs exhausted" ("All APIs exhausted after " ++ x) = true := by
  show hasSub ("All APIs exhausted".toList) (("All APIs exhausted after " ++ x).toList) = true
  have hsplit : ("All APIs exhausted after " ++ x).toList
      = "All APIs exhausted".toList ++ (" after ".toList ++ x.toList) := by
    show ("All APIs exhausted after " ++ x).data
        = "All APIs exhausted".data ++ (" after ".data ++ x.data)
    rw [String.data_append, ← List.append_assoc]
    congr 1
  rw [hsplit]
  exact hasSub_of_leadsWith (leadsWith_append_self _ _)

theorem rate_keywords_agree (el : String) :
    anyKeyword rateLimitKeywords el = anyKeyword specRateKeywords el := by
  have code_to_spec : anyKeyword rateLimitKeywords el = true →
      anyKeyword specRateKeywords el = true := by
    simp only [anyKeyword, List.any_eq_true]
    rintro ⟨k, hk, hin⟩
    simp only [rateLimitKeywords, List.mem_cons, List.not_mem_nil, or_false] at hk
    rcases hk with rfl | rfl | rfl | rfl | rfl | rfl | rfl | rfl
    case inr.inr.inr.inr.inr.inl =>
      exact ⟨"exceeded", by decide, inStr_trans (by decide) hin⟩
    case inr.inr.inr.inr.inr.inr.inl =>
      exact ⟨"quota", by decide, inStr_trans (by decide) hin⟩
    case inr.inr.inr.inr.inr.inr.inr =>
      exact ⟨"exceeded", by decide, inStr_trans (by decide) hin⟩
    all_goals exact ⟨_, by decide, hin⟩
  have spec_to_code : anyKeyword specRateKeywords el = true →
      anyKeyword rateLimitKeywords el = true := by
    simp only [anyKeyword, List.any_eq_true]
    rintro ⟨k, hk, hin⟩
    simp only [specRateKeywords, List.mem_cons, List.not_mem_nil, or_false] at hk
    rcases hk with rfl | rfl | rfl | rfl | rfl
    all_goals exact ⟨_, by decide, hin⟩
  cases hc : anyKeyword rateLimitKeywords el with
  | true => exact (code_to_spec hc).symm
  | false =>
    cases hs : anyKeyword specRateKeywords el with
    | true => exact absurd (spec_to_code hs) (by simp [hc])
    | false => rfl

/-! ### Health and cooldown manager lemmas -/

theorem setStat_same (m : UsageStatsMap) (b : String) (s : APIUsageStats) :
    setStat m b s b = s := by
  simp [setStat]

theorem handleApiError_unavailable (a msg : String) (t : Rat) (s : APIUsageStats) :
    (handleApiError a msg t s).is_available = false := by
  simp only [handleApiError]
  repeat' split
  all_goals rfl

theorem handleApiError_preserves (a msg : String) (t : Rat) (s : APIUsageStats) :
    (handleApiError a msg t s).consecutive_failures = s.consecutive_failures ∧
    (handleApiError a msg t s).failed_calls = s.failed_calls ∧
    (handleApiError a msg t s).calls_made = s.calls_made ∧
    (handleApiError a msg t s).last_error = s.last_error ∧
    (handleApiError a msg t s).last_call_time = s.last_call_time := by
  simp only [handleApiError]
  repeat' split
  all_goals exact ⟨rfl, rfl, rfl, rfl, rfl⟩

theorem handleApiError_reset_time (a msg : String) (t : Rat) (s : APIUsageStats) :
    (handleApiError a msg t s).rate_limit_reset_time =
      cooldownExpiry a (pyLower msg) s.consecutive_failures t := by
  simp only [handleApiError, cooldownExpiry, rateLimitCooldownExpiry]
  rw [rate_keywords_agree]
  repeat' split
  all_goals simp_all

theorem record_failure_eq (m : UsageStatsMap) (b msg : String) (t : Rat)
    (hmsg : ¬(msg = "")) :
    record_api_call m b false (some msg) t b =
      handleApiError b msg t
        { m b with
          calls_made := (m b).calls_made + 1
          last_call_time := t
          failed_calls := (m b).failed_calls + 1
          consecutive_failures := (m b).consecutive_failures + 1
          last_error := some msg } := by
  simp [record_api_call, hmsg, setStat]

/-- C4: `record_api_call(backend, success=false)` with a non-empty message
classifies it case-insensitively into exactly one category (first match wins,
in the order rate-limit, authentication, transient, repeated-failure with
`consecutive_failures ≥ 3` after the increment, unknown); every category marks
the backend unavailable; the cooldown expiries follow the `cooldownExpiry`
table, whose rate-limit row is amended: the parsed retry-after value + 10s
buffer applies when the message parses, a 300s default applies when the
message contains "retry-after" without a parseable value, and only otherwise
do the family defaults (70s google / 90s groq / 180s else) apply. -/
theorem record_failure_cooldown_policy (m : UsageStatsMap) (b msg : String) (t : Rat)
    (hmsg : ¬(msg = "")) :
    (record_api_call m b false (some msg) t b).is_available = false ∧
    (record_api_call m b false (some msg) t b).rate_limit_reset_time =
      cooldownExpiry b (pyLower msg) ((m b).consecutive_failures + 1) t ∧
    (record_api_call m b false (some msg) t b).consecutive_failures =
      (m b).consecutive_failures + 1 ∧
    (record_api_call m b false (some msg) t b).failed_calls = (m b).failed_calls + 1 ∧
    (record_api_call m b false (some msg) t b).calls_made = (m b).calls_made + 1 ∧
    (record_api_call m b false (some msg) t b).last_error = some msg := by
  rw [record_failure_eq m b msg t hmsg]
  refine ⟨handleApiError_unavailable b msg t _, ?_, ?_, ?_, ?_, ?_⟩
  · rw [handleApiError_reset_time]
  · exact (handleApiError_preserves b msg t _).1
  · exact (handleApiError_preserves b msg t _).2.1
  · exact (handleApiError_preserves b msg t _).2.2.1
  · exact (handleApiError_preserves b msg t _).2.2.2.1

unseal Rat.add Rat.mul Rat.inv Rat.sub in
theorem record_failure_cooldown_policy_witness :
    ¬("quota exceeded" = "") ∧
    (record_api_call initialUsage "together_ai" false (some "quota exceeded") 0
      "together_ai").is_available = false ∧
    (record_api_call initialUsage "together_ai" false (some "quota exceeded") 0
      "together_ai").rate_limit_reset_time = 180 := by
  have h := record_failure_cooldown_policy initialUsage "together_ai" "quota exceeded" 0
    (by decide)
  exact ⟨by decide, h.1, by rw [h.2.1]; decide⟩

unseal Rat.add Rat.mul Rat.inv Rat.sub in
/-- C4 counterexample: with the message "429 retry-after: soon" (rate-limit
keyword present, "retry-after" present, but no parseable retry value), the
code sets a 300s cooldown for the google-family backend, not the 70s family
default the claim's table demands when no retry-after value is present. -/
theorem retry_after_unparsed_counterexample :
    (record_api_call initialUsage "google_primary" false (some "429 retry-after: soon") 0
      "google_primary").rate_limit_reset_time = 300 ∧
    ¬((record_api_call initialUsage "google_primary" false (some "429 retry-after: soon") 0
      "google_primary").rate_limit_reset_time = 70) := by
  decide

/-- C5: after a classified failure (non-empty message) with no intervening
success or reset, the backend reads unavailable at every time strictly before
`rate_limit_reset_time`, and from the first query at or past that time the
read returns true, flips the stored flag to available, and zeroes
`consecutive_failures`. -/
theorem cooldown_gates_availability (m : UsageStatsMap) (b msg : String) (t : Rat)
    (hmsg : ¬(msg = "")) :
    (record_api_call m b false (some msg) t b).is_available = false ∧
    (∀ t2 : Rat, t2 < (record_api_call m b false (some msg) t b).rate_limit_reset_time →
      (isApiCurrentlyAvailable (record_api_call m b false (some msg) t) b t2).1 = false) ∧
    (∀ t2 : Rat, (record_api_call m b false (some msg) t b).rate_limit_reset_time ≤ t2 →
      (isApiCurrentlyAvailable (record_api_call m b false (some msg) t) b t2).1 = true ∧
      ((isApiCurrentlyAvailable (record_api_call m b false (some msg) t) b t2).2 b).is_available
        = true ∧
      ((isApiCurrentlyAvailable (record_api_call m b false (some msg) t) b t2).2 b).consecutive_failures
        = 0) := by
  have hu : (record_api_call m b false (some msg) t b).is_available = false := by
    rw [record_failure_eq m b msg t hmsg]
    exact handleApiError_unavailable b msg t _
  refine ⟨hu, ?_, ?_⟩
  · intro t2 ht
    simp [isApiCurrentlyAvailable, hu, not_le.mpr ht]
  · intro t2 ht
    simp [isApiCurrentlyAvailable, hu, ht, setStat_same]

unseal Rat.add Rat.mul Rat.inv Rat.sub in
theorem cooldown_gates_availability_witness :
    ¬("429" = "") ∧
    (record_api_call initialUsage "groq" false (some "429") 0 "groq").is_available = false ∧
    (isApiCurrentlyAvailable (record_api_call initialUsage "groq" false (some "429") 0)
      "groq" 89).1 = false ∧
    (isApiCurrentlyAvailable (record_api_call initialUsage "groq" false (some "429") 0)
      "groq" 90).1 = true := by
  have h := cooldown_gates_availability initialUsage "groq" "429" 0 (by decide)
  exact ⟨by decide, h.1, h.2.1 89 (by decide), (h.2.2 90 (by decide)).1⟩

/-- C6: a single successful `record_api_call` resets `consecutive_failures`
to 0, clears `last_error`, sets `is_available` to true unconditionally, and
the backend reads available immediately afterwards at any time. -/
theorem record_success_clears_state (m : UsageStatsMap) (b : String)
    (em : Option String) (t : Rat) :
    (record_api_call m b true em t b).consecutive_failures = 0 ∧
    (record_api_call m b true em t b).last_error = none ∧
    (record_api_call m b true em t b).is_available = true ∧
    (record_api_call m b true em t b).successful_calls = (m b).successful_calls + 1 ∧
    ∀ t2 : Rat, (isApiCurrentlyAvailable (record_api_call m b true em t) b t2).1 = true := by
  have hb : record_api_call m b true em t b =
      { m b with
        calls_made := (m b).calls_made + 1
        last_call_time := t
        successful_calls := (m b).successful_calls + 1
        consecutive_failures := 0
        last_error := none
        is_available := true } := by
    simp [record_api_call, setStat]
  refine ⟨by rw [hb], by rw [hb], by rw [hb], by rw [hb], ?_⟩
  intro t2
  simp [isApiCurrentlyAvailable, hb]

/-- C10: a failed `record_api_call` with an empty or missing error message
increments `calls_made`, `failed_calls` and `consecutive_failures` and stamps
`last_call_time`, but classifies nothing: availability and the cooldown
timestamp are untouched, so a backend that was available stays selectable. -/
theorem record_failure_no_message (m : UsageStatsMap) (b : String)
    (em : Option String) (t : Rat) (hemp : em = none ∨ em = some "") :
    (record_api_call m b false em t b).calls_made = (m b).calls_made + 1 ∧
    (record_api_call m b false em t b).failed_calls = (m b).failed_calls + 1 ∧
    (record_api_call m b false em t b).consecutive_failures
      = (m b).consecutive_failures + 1 ∧
    (record_api_call m b false em t b).last_call_time = t ∧
    (record_api_call m b false em t b).is_available = (m b).is_available ∧
    (record_api_call m b false em t b).rate_limit_reset_time
      = (m b).rate_limit_reset_time ∧
    ((m b).is_available = true →
      ∀ t2 : Rat, (isApiCurrentlyAvailable (record_api_call m b false em t) b t2).1 = true) := by
  have hb : record_api_call m b false em t b =
      { m b with
        calls_made := (m b).calls_made + 1
        last_call_time := t
        failed_calls := (m b).failed_calls + 1
        consecutive_failures := (m b).consecutive_failures + 1
        last_error := em } := by
    rcases hemp with rfl | rfl <;> simp [record_api_call, setStat]
  refine ⟨by rw [hb], by rw [hb], by rw [hb], by rw [hb], by rw [hb], by rw [hb], ?_⟩
  intro hav t2
  have : (record_api_call m b false em t b).is_available = true := by rw [hb]; exact hav
  simp [isApiCurrentlyAvailable, this]

theorem record_failure_no_message_witness :
    ((none : Option String) = none ∨ (none : Option String) = some "") ∧
    (record_api_call initialUsage "groq" false none 5 "groq").calls_made = 1 ∧
    (record_api_call initialUsage "groq" false none 5 "groq").consecutive_failures = 1 ∧
    (record_api_call initialUsage "groq" false none 5 "groq").is_available = true ∧
    (isApiCurrentlyAvailable (record_api_call initialUsage "groq" false none 5)
      "groq" 6).1 = true := by
  have h := record_failure_no_message initialUsage "groq" none 5 (Or.inl rfl)
  refine ⟨Or.inl rfl, ?_, ?_, ?_, h.2.2.2.2.2.2 (by decide) 6⟩
  · rw [h.1]; decide
  · rw [h.2.2.1]; decide
  · rw [h.2.2.2.2.1]; decide

/-! ### Language detection (claim C3) -/

/-- C3 counterexample: the chunk "hello" contains no character in the
Devanagari, Arabic/Urdu or Bengali ranges, yet `analyze_chunk` reports
`has_indic_script = true` with primary language "krutidev", because the
`krutidev` pattern `[a-zA-Z]{2,}` of `indic_scripts` matches any run of two
or more ASCII letters. -/
theorem krutidev_counterexample :
    countRangeChars 0x900 0x97F "hello".toList = 0 ∧
    countRangeChars 0x600 0x6FF "hello".toList = 0 ∧
    countRangeChars 0x980 0x9FF "hello".toList = 0 ∧
    (analyze_chunk_language "hello").has_indic_script = true ∧
    (analyze_chunk_language "hello").primary_language = "krutidev" := by
  decide

/-- C3 amended: for every chunk with no character in the Devanagari
(U+0900–U+097F), Arabic/Urdu (U+0600–U+06FF) or Bengali (U+0980–U+09FF)
ranges AND no run of two or more consecutive ASCII letters (the `krutidev`
pattern), `analyze_chunk` reports `has_indic_script = false`, primary
language "en" and language confidence 0.8. -/
theorem detect_language_latin_default (s : String)
    (h1 : countRangeChars 0x900 0x97F s.toList = 0)
    (h2 : countRangeChars 0x600 0x6FF s.toList = 0)
    (h3 : countRangeChars 0x980 0x9FF s.toList = 0)
    (h4 : countLetterRuns s.toList = 0) :
    (analyze_chunk_language s).has_indic_script = false ∧
    (analyze_chunk_language s).primary_language = "en" ∧
    (analyze_chunk_language s).confidence = 8 / 10 := by
  have hc : indicCounts s = [] := by
    simp only [indicCounts]
    simp
    exact ⟨h1, h2, h3, h4⟩
  simp [analyze_chunk_language, detect_language, hc, firstMax]

theorem detect_language_latin_default_witness :
    countRangeChars 0x900 0x97F "a b 12".toList = 0 ∧
    countRangeChars 0x600 0x6FF "a b 12".toList = 0 ∧
    countRangeChars 0x980 0x9FF "a b 12".toList = 0 ∧
    countLetterRuns "a b 12".toList = 0 ∧
    ((analyze_chunk_language "a b 12").has_indic_script = false ∧
     (analyze_chunk_language "a b 12").primary_language = "en" ∧
     (analyze_chunk_language "a b 12").confidence = 8 / 10) :=
  ⟨by decide, by decide, by decide, by decide,
    detect_language_latin_default "a b 12" (by decide) (by decide) (by decide) (by decide)⟩

/-! ### Backend selector lemmas (claim C7) -/

theorem foldl_pick_mem {f : String → String → String}
    (hf : ∀ b x, f b x = b ∨ f b x = x) :
    ∀ (l : List String) (b : String), l.foldl f b = b ∨ l.foldl f b ∈ l := by
  intro l
  induction l with
  | nil => intro b; exact Or.inl rfl
  | cons x xs ih =>
    intro b
    rw [List.foldl_cons]
    rcases ih (f b x) with h | h
    · rcases hf b x with h2 | h2
      · exact Or.inl (by rw [h, h2])
      · exact Or.inr (by rw [h, h2]; exact List.mem_cons_self x xs)
    · exact Or.inr (List.mem_cons_of_mem x h)

theorem argminScore_mem (m : UsageStatsMap) (now : Rat) (l : List String) (r : String)
    (h : argminScore m now l = some r) : r ∈ l := by
  cases l with
  | nil => simp [argminScore] at h
  | cons a rest =>
    simp only [argminScore, Option.some.injEq] at h
    subst h
    rcases foldl_pick_mem
      (f := fun b x => if apiScore m now x < apiScore m now b then x else b)
      (fun b x => by dsimp only; split
                     · exact Or.inr rfl
                     · exact Or.inl rfl) rest a with h | h
    · rw [h]; exact List.mem_cons_self a rest
    · exact List.mem_cons_of_mem a h

theorem choose_least_used_api_mem (m : UsageStatsMap) (now : Rat) (l : List String)
    (r : String) (h : choose_least_used_api m now l = some r) : r ∈ l := by
  cases l with
  | nil => simp [choose_least_used_api] at h
  | cons a rest =>
    cases rest with
    | nil =>
      simp only [choose_least_used_api, Option.some.injEq] at h
      subst h
      exact List.mem_cons_self a []
    | cons b rest2 =>
      exact argminScore_mem m now (a :: b :: rest2) r h

theorem choose_least_used_api_isSome (m : UsageStatsMap) (now : Rat) (l : List String)
    (hl : l ≠ []) : ∃ r, choose_least_used_api m now l = some r := by
  cases l with
  | nil => exact absurd rfl hl
  | cons a rest =>
    cases rest with
    | nil => exact ⟨a, rfl⟩
    | cons b rest2 => exact ⟨_, rfl⟩

/-- C7: whenever the analysis says the chunk carries Indic script and the
candidate list handed to `_select_best_from_remaining` contains at least one
script-capable backend (one whose `api_configs` entry sets `supports_indic`),
the selector picks a script-capable backend, never a non-script-capable one. -/
theorem selector_indic_invariant (m : UsageStatsMap) (now : Rat)
    (remaining : List String) (analysis : ChunkAnalysis)
    (hsub : ∀ a ∈ remaining, a ∈ apiNames)
    (hindic : analysis.has_indic_script = true)
    (hcap : ∃ a ∈ remaining, supportsIndic a = true) :
    ∃ r, select_best_from_remaining m now remaining analysis = some r ∧
      supportsIndic r = true := by
  have hgoog : ∀ a ∈ apiNames, supportsIndic a = isGoogleApi a := by decide
  obtain ⟨a, ha, hcapa⟩ := hcap
  have hga : isGoogleApi a = true := by rw [← hgoog a (hsub a ha)]; exact hcapa
  have hfilter : a ∈ remaining.filter isGoogleApi := List.mem_filter.mpr ⟨ha, hga⟩
  have hne : remaining.filter isGoogleApi ≠ [] := List.ne_nil_of_mem hfilter
  have hremp : remaining.isEmpty = false := by
    cases remaining with
    | nil => cases ha
    | cons x xs => rfl
  have hfemp : (remaining.filter isGoogleApi).isEmpty = false := by
    cases hfl : remaining.filter isGoogleApi with
    | nil => exact absurd hfl hne
    | cons x xs => rfl
  obtain ⟨r, hr⟩ := choose_least_used_api_isSome m now (remaining.filter isGoogleApi) hne
  refine ⟨r, ?_, ?_⟩
  · simp only [select_best_from_remaining, hremp, hindic, hfemp, Bool.false_eq_true,
      if_false, Bool.not_false, Bool.and_self, if_true]
    exact hr
  · have hrmem := choose_least_used_api_mem m now _ r hr
    rw [hgoog r (hsub r (List.mem_of_mem_filter hrmem))]
    exact (List.mem_filter.mp hrmem).2

theorem selector_indic_invariant_witness :
    (∀ a ∈ ["google_secondary", "groq"], a ∈ apiNames) ∧
    indicAnalysis.has_indic_script = true ∧
    (∃ a ∈ ["google_secondary", "groq"], supportsIndic a = true) ∧
    (∃ r, select_best_from_remaining initialUsage 0 ["google_secondary", "groq"]
        indicAnalysis = some r ∧ supportsIndic r = true) :=
  ⟨by decide, rfl, by decide,
    selector_indic_invariant initialUsage 0 ["google_secondary", "groq"] indicAnalysis
      (by decide) rfl (by decide)⟩

/-! ### Routing loop support lemmas -/

theorem select_best_mem (m : UsageStatsMap) (now : Rat) (l : List String)
    (an : ChunkAnalysis) (r : String)
    (h : select_best_from_remaining m now l an = some r) : r ∈ l := by
  simp only [select_best_from_remaining] at h
  split at h
  · exact absurd h (by simp)
  · split at h
    · exact List.mem_of_mem_filter (choose_least_used_api_mem _ _ _ _ h)
    · split at h
      · split at h
        · exact List.mem_of_mem_filter (choose_least_used_api_mem _ _ _ _ h)
        · split at h
          · exact List.mem_of_mem_filter (choose_least_used_api_mem _ _ _ _ h)
          · exact choose_least_used_api_mem _ _ _ _ h
      · exact choose_least_used_api_mem _ _ _ _ h

theorem bnot_isEmpty_ne_nil {l : List String} (h : (!l.isEmpty) = true) : l ≠ [] := by
  cases l with
  | nil => simp at h
  | cons a t => simp

theorem select_best_isSome (m : UsageStatsMap) (now : Rat) (l : List String)
    (an : ChunkAnalysis) (hl : l.isEmpty = false) :
    ∃ r, select_best_from_remaining m now l an = some r := by
  have hne : l ≠ [] := by
    cases l with
    | nil => cases hl
    | cons a t => simp
  simp only [select_best_from_remaining, hl, Bool.false_eq_true, if_false]
  split
  · next hcond =>
      have h2 := hcond
      rw [Bool.and_eq_true] at h2
      exact choose_least_used_api_isSome _ _ _ (bnot_isEmpty_ne_nil h2.2)
  · split
    · split
      · next hg => exact choose_least_used_api_isSome _ _ _ (bnot_isEmpty_ne_nil hg)
      · split
        · next hp => exact choose_least_used_api_isSome _ _ _ (bnot_isEmpty_ne_nil hp)
        · exact choose_least_used_api_isSome _ _ _ hne
    · exact choose_least_used_api_isSome _ _ _ hne

theorem getAvailableApisAux_sub (keys : String → Bool) (now : Rat) :
    ∀ (l : List String) (m : UsageStatsMap) (a : String),
      a ∈ (getAvailableApisAux keys now l m).1 → a ∈ l := by
  intro l
  induction l with
  | nil => intro m a h; simp [getAvailableApisAux] at h
  | cons x rest ih =>
    intro m a h
    simp only [getAvailableApisAux] at h
    by_cases hk : keys x = true
    · rw [if_pos hk] at h
      split at h
      · rcases List.mem_cons.mp h with h2 | h2
        · rw [h2]; exact List.mem_cons_self _ _
        · exact List.mem_cons_of_mem x (ih _ a h2)
      · exact List.mem_cons_of_mem x (ih _ a h)
    · rw [if_neg hk] at h
      exact List.mem_cons_of_mem x (ih _ a h)

theorem refreshRemaining_mem (keys : String → Bool) (now : Rat) (tried : List String)
    (em : Bool) (m : UsageStatsMap) (a : String)
    (h : a ∈ (refreshRemaining keys now tried em m).1) : a ∈ apiNames ∧ a ∉ tried := by
  simp only [refreshRemaining] at h
  split at h
  · have h2 := List.mem_filter.mp h
    refine ⟨getAvailableApisAux_sub keys now apiNames _ a h2.1, ?_⟩
    have := h2.2
    simpa [List.elem_iff] using this
  · have h2 := List.mem_filter.mp h
    refine ⟨getAvailableApisAux_sub keys now apiNames _ a h2.1, ?_⟩
    have := h2.2
    simpa [List.elem_iff] using this

theorem refreshRemaining_flags (keys : String → Bool) (now : Rat) (tried : List String)
    (em : Bool) (m : UsageStatsMap) :
    ((refreshRemaining keys now tried em m).2.2.2 = true →
      em = false ∧ (refreshRemaining keys now tried em m).2.1 = true) ∧
    ((refreshRemaining keys now tried em m).2.2.2 = false →
      (refreshRemaining keys now tried em m).2.1 = em) := by
  simp only [refreshRemaining]
  split
  · next hcond =>
      refine ⟨fun _ => ⟨?_, rfl⟩, fun h => absurd h (by simp)⟩
      have h2 := hcond
      rw [Bool.and_eq_true] at h2
      simpa using h2.2
  · exact ⟨fun h => absurd h (by simp), fun _ => rfl⟩

theorem nodup_snoc {l : List String} {a : String} (h : l.Nodup) (ha : a ∉ l) :
    (l ++ [a]).Nodup := by
  simp [List.nodup_append, h, ha]

theorem successOnlyLast_of_noSuccess {tr : List RouteEvent} (h : noSuccessInvoke tr) :
    successOnlyLast tr := by
  intro pre a suf heq
  exact absurd (heq ▸ List.mem_append.mpr (Or.inr (List.mem_cons_self _ _))) (h a)

theorem noSuccessInvoke_append {tr : List RouteEvent} (h : noSuccessInvoke tr)
    {e : RouteEvent} (he : ∀ a, ¬(e = RouteEvent.invoke a true)) :
    noSuccessInvoke (tr ++ [e]) := by
  intro a hmem
  rcases List.mem_append.mp hmem with h1 | h1
  · exact h a h1
  · exact he a (List.mem_singleton.mp h1).symm

theorem successOnlyLast_snoc {tr : List RouteEvent} (h : noSuccessInvoke tr) (x : String) :
    successOnlyLast (tr ++ [RouteEvent.invoke x true]) := by
  intro pre a suf heq
  rcases List.append_eq_append_iff.mp heq with ⟨e, he1, he2⟩ | ⟨e, he1, he2⟩
  · cases e with
    | nil =>
      rw [List.nil_append] at he2
      exact (List.cons_eq_cons.mp he2).2.symm
    | cons y ys =>
      rw [List.cons_append] at he2
      exact absurd (List.cons_eq_cons.mp he2).2 (by simp)
  · cases e with
    | nil =>
      rw [List.nil_append] at he2
      exact (List.cons_eq_cons.mp he2).2
    | cons y ys =>
      exfalso
      rw [List.cons_append] at he2
      have hy : RouteEvent.invoke a true = y := (List.cons_eq_cons.mp he2).1
      apply h a
      rw [he1, ← hy]
      exact List.mem_append.mpr (Or.inr (List.mem_cons_self _ _))

theorem resetCount_append (tr : List RouteEvent) (e : RouteEvent) :
    resetCount (tr ++ [e]) = resetCount tr + (if e = RouteEvent.reset then 1 else 0) := by
  simp only [resetCount, List.filter_append, List.length_append]
  congr 1
  by_cases he : e = RouteEvent.reset
  · subst he; rfl
  · have hb : (e == RouteEvent.reset) = false := by
      cases e with
      | reset => exact absurd rfl he
      | invoke a s => rfl
    simp [hb, he]

/-! ### The master invariant of the routing loop -/

theorem masterInv_allFailed (max_retries : Nat) (em : Bool) (trace : List RouteEvent)
    (ac : Nat) (tried : List String) (hac : ac ≤ max_retries) (hnd : tried.Nodup)
    (hns : noSuccessInvoke trace) (msg : String) :
    masterInv max_retries em trace
      ({ success := false, error := some msg, tried_apis := tried,
         attempts_made := some ac }, trace) := by
  refine ⟨?_, hnd, successOnlyLast_of_noSuccess hns, Nat.le_add_right _ _, ?_, ?_, ?_⟩
  · intro n h
    injection h with h2
    rw [← h2]
    exact hac
  · intro h; simp at h
  · intro _; exact ⟨rfl, rfl, rfl, rfl⟩
  · intro h; simp at h

theorem masterInv_exhausted (max_retries : Nat) (em : Bool)
    (trace trace2 : List RouteEvent) (tried : List String) (hnd : tried.Nodup)
    (hns : noSuccessInvoke trace2)
    (hrc : resetCount trace2 ≤ resetCount trace + (if em then 0 else 1)) (x : String) :
    masterInv max_retries em trace
      ({ success := false, error := some ("All APIs exhausted after " ++ x),
         tried_apis := tried }, trace2) := by
  refine ⟨?_, hnd, successOnlyLast_of_noSuccess hns, hrc, ?_, ?_, ?_⟩
  · intro n h; exact absurd h (by simp)
  · intro h; simp at h
  · intro _; exact ⟨rfl, rfl, rfl, rfl⟩
  · intro _
    exact ⟨rfl, inStr_exhausted_message x⟩

theorem masterInv_mono (max_retries : Nat) (em em2 : Bool)
    (trace trace2 : List RouteEvent) (out : RouteResult × List RouteEvent)
    (h : masterInv max_retries em2 trace2 out)
    (hle : resetCount trace2 + (if em2 then 0 else 1)
      ≤ resetCount trace + (if em then 0 else 1)) :
    masterInv max_retries em trace out :=
  ⟨h.1, h.2.1, h.2.2.1, le_trans h.2.2.2.1 hle, h.2.2.2.2⟩

theorem routeLoop_master (keys : String → Bool) (env : RouteEnv)
    (analysis : ChunkAnalysis) (max_retries : Nat) :
    ∀ (fuel k attempt_count : Nat) (tried : List String) (emergency_mode : Bool)
      (m : UsageStatsMap) (trace : List RouteEvent),
      attempt_count ≤ max_retries → tried.Nodup → noSuccessInvoke trace →
      masterInv max_retries emergency_mode trace
        (routeLoop keys env analysis max_retries fuel k attempt_count tried
          emergency_mode m trace) := by
  intro fuel
  induction fuel with
  | zero =>
    intro k ac tried em m trace hac hnd hns
    exact masterInv_allFailed max_retries em trace ac tried hac hnd hns _
  | succ fuel ih =>
    intro k ac tried em m trace hac hnd hns
    simp only [routeLoop]
    by_cases hlt : ac < max_retries
    case neg =>
      rw [if_neg hlt]
      exact masterInv_allFailed max_retries em trace ac tried hac hnd hns _
    rw [if_pos hlt]
    rcases hRe : refreshRemaining keys (env.tick k) tried em m with
      ⟨remaining, em2, m2, didReset⟩
    have hflags := refreshRemaining_flags keys (env.tick k) tried em m
    rw [hRe] at hflags
    have hmem : ∀ a ∈ remaining, a ∈ apiNames ∧ a ∉ tried := by
      intro a ha
      exact refreshRemaining_mem keys (env.tick k) tried em m a (by rw [hRe]; exact ha)
    dsimp only at hflags ⊢
    have hns2 : noSuccessInvoke
        (if didReset = true then trace ++ [RouteEvent.reset] else trace) := by
      split
      · exact noSuccessInvoke_append hns (fun a => by simp)
      · exact hns
    have hrc2 : resetCount (if didReset = true then trace ++ [RouteEvent.reset] else trace)
          + (if em2 = true then 0 else 1)
        ≤ resetCount trace + (if em = true then 0 else 1) := by
      by_cases hdr : didReset = true
      · rw [if_pos hdr, resetCount_append, (hflags.1 hdr).1, (hflags.1 hdr).2]
        simp
      · have hdrf : didReset = false := by
          cases didReset with
          | false => rfl
          | true => exact absurd rfl hdr
        rw [if_neg hdr, hflags.2 hdrf]
    by_cases hremp : remaining.isEmpty = true
    · rw [if_pos hremp]
      have hmsg : "All APIs exhausted after " ++ toString ac ++ " attempts. Tried: "
            ++ toString tried
          = "All APIs exhausted after "
            ++ (toString ac ++ (" attempts. Tried: " ++ toString tried)) := by
        rw [String.append_assoc, String.append_assoc]
      rw [hmsg]
      refine masterInv_exhausted max_retries em trace _ tried hnd hns2 ?_ _
      calc resetCount (if didReset = true then trace ++ [RouteEvent.reset] else trace)
          ≤ resetCount (if didReset = true then trace ++ [RouteEvent.reset] else trace)
            + (if em2 = true then 0 else 1) := Nat.le_add_right _ _
        _ ≤ resetCount trace + (if em = true then 0 else 1) := hrc2
    · rw [if_neg hremp]
      have hrempF : remaining.isEmpty = false := by
        cases h2 : remaining.isEmpty with
        | false => rfl
        | true => exact absurd h2 hremp
      obtain ⟨selected, hsel⟩ := select_best_isSome m2 (env.tick k) remaining analysis hrempF
      rw [hsel]
      have hselmem := select_best_mem m2 (env.tick k) remaining analysis selected hsel
      obtain ⟨hselapi, hselnt⟩ := hmem selected hselmem
      cases ho : env.outcome k with
      | ok c mo =>
        simp only [execResultOf, Option.getD_some, eq_self_iff_true, if_true]
        refine ⟨?_, nodup_snoc hnd hselnt, successOnlyLast_snoc hns2 selected, ?_, ?_, ?_, ?_⟩
        · intro n h
          injection h with h2
          rw [← h2]
          exact hlt
        · rw [resetCount_append,
            if_neg (show ¬(RouteEvent.invoke selected true = RouteEvent.reset) by simp)]
          calc resetCount (if didReset = true then trace ++ [RouteEvent.reset] else trace) + 0
              = resetCount (if didReset = true then trace ++ [RouteEvent.reset] else trace) := rfl
            _ ≤ _ + (if em2 = true then 0 else 1) := Nat.le_add_right _ _
            _ ≤ resetCount trace + (if em = true then 0 else 1) := hrc2
        · intro _; exact ⟨rfl, rfl, rfl, rfl, rfl⟩
        · intro h; simp at h
        · intro h; simp at h
      | fail e =>
        simp only [execResultOf, Option.getD_some, Bool.false_eq_true, if_false]
        have hns3 : noSuccessInvoke
            ((if didReset = true then trace ++ [RouteEvent.reset] else trace)
              ++ [RouteEvent.invoke selected false]) :=
          noSuccessInvoke_append hns2 (fun a => by simp)
        have hle3 : resetCount
              ((if didReset = true then trace ++ [RouteEvent.reset] else trace)
                ++ [RouteEvent.invoke selected false]) + (if em2 = true then 0 else 1)
            ≤ resetCount trace + (if em = true then 0 else 1) := by
          rw [resetCount_append,
            if_neg (show ¬(RouteEvent.invoke selected false = RouteEvent.reset) by simp)]
          exact hrc2
        by_cases hretry : should_retry_error e = true
        · rw [if_pos hretry]
          exact masterInv_mono max_retries em em2 trace _ _
            (ih (k + 1) (ac + 1) (tried ++ [selected]) em2 _ _ hlt
              (nodup_snoc hnd hselnt) hns3) hle3
        · rw [if_neg hretry]
          exact masterInv_mono max_retries em em2 trace _ _
            (ih (k + 1) ac (tried ++ [selected]) em2 _ _ hac
              (nodup_snoc hnd hselnt) hns3) hle3

/-- C1: for every `route_and_execute` call with `max_retries ≥ 1` and any
sequence of clock readings and adapter outcomes, the result's
`attempts_made` (whenever the result carries one) is at most `max_retries`,
the returned `tried_apis` list has no duplicate backend identifiers, and a
successful invocation is the final backend invocation of the call — the
engine returns that attempt's result immediately. -/
theorem route_and_execute_invariants (keys : String → Bool) (env : RouteEnv)
    (analysis : ChunkAnalysis) (emergency_mode : Bool) (max_retries : Nat)
    (_hmr : 1 ≤ max_retries) :
    (∀ n, (route_and_execute keys env analysis emergency_mode max_retries).1.attempts_made
        = some n → n ≤ max_retries) ∧
    (route_and_execute keys env analysis emergency_mode max_retries).1.tried_apis.Nodup ∧
    successOnlyLast (route_and_execute keys env analysis emergency_mode max_retries).2 := by
  obtain ⟨h1, h2, h3, -⟩ := routeLoop_master keys env analysis max_retries
    (max_retries + apiNames.length + 1) 0 0 [] emergency_mode initialUsage []
    (Nat.zero_le _) List.nodup_nil (fun a ha => absurd ha (List.not_mem_nil _))
  exact ⟨h1, h2, h3⟩

theorem route_and_execute_invariants_witness :
    1 ≤ 3 ∧
    ((∀ n, (route_and_execute noKeys envAllFail mediumAnalysis false 3).1.attempts_made
        = some n → n ≤ 3) ∧
     (route_and_execute noKeys envAllFail mediumAnalysis false 3).1.tried_apis.Nodup ∧
     successOnlyLast (route_and_execute noKeys envAllFail mediumAnalysis false 3).2) :=
  ⟨by decide, route_and_execute_invariants noKeys envAllFail mediumAnalysis false 3 (by decide)⟩

/-- C8: within one `route_and_execute` call the emergency reset (force-clear
of all cooldowns) happens at most once when the call starts with
`emergency_mode = false` and never when it starts already in emergency mode;
and the all-APIs-exhausted exit — the only result shape lacking
`attempts_made` — is a structured failure: `success = false` and the error
string contains "All APIs exhausted" (the result also carries `tried_apis`,
a field every return site populates). -/
theorem emergency_reset_policy (keys : String → Bool) (env : RouteEnv)
    (analysis : ChunkAnalysis) (max_retries : Nat) :
    resetCount (route_and_execute keys env analysis false max_retries).2 ≤ 1 ∧
    resetCount (route_and_execute keys env analysis true max_retries).2 = 0 ∧
    ((route_and_execute keys env analysis false max_retries).1.attempts_made = none →
      (route_and_execute keys env analysis false max_retries).1.success = false ∧
      inStr "All APIs exhausted"
        (((route_and_execute keys env analysis false max_retries).1.error).getD "")
        = true) := by
  obtain ⟨-, -, -, h4f, -, -, h7f⟩ := routeLoop_master keys env analysis max_retries
    (max_retries + apiNames.length + 1) 0 0 [] false initialUsage []
    (Nat.zero_le _) List.nodup_nil (fun a ha => absurd ha (List.not_mem_nil _))
  obtain ⟨-, -, -, h4t, -, -, -⟩ := routeLoop_master keys env analysis max_retries
    (max_retries + apiNames.length + 1) 0 0 [] true initialUsage []
    (Nat.zero_le _) List.nodup_nil (fun a ha => absurd ha (List.not_mem_nil _))
  have h4t2 : resetCount (route_and_execute keys env analysis true max_retries).2 ≤ 0 := by
    simpa [resetCount] using h4t
  refine ⟨by simpa using h4f, Nat.le_zero.mp h4t2, fun h => ⟨(h7f h).1, (h7f h).2⟩⟩

theorem emergency_reset_policy_witness :
    resetCount (route_and_execute noKeys envAllFail mediumAnalysis false 3).2 ≤ 1 ∧
    (route_and_execute noKeys envAllFail mediumAnalysis false 3).1.attempts_made = none ∧
    (route_and_execute noKeys envAllFail mediumAnalysis false 3).1.success = false ∧
    inStr "All APIs exhausted"
      (((route_and_execute noKeys envAllFail mediumAnalysis false 3).1.error).getD "")
      = true ∧
    resetCount (route_and_execute noKeys envAllFail mediumAnalysis false 3).2 = 1 :=
  ⟨(emergency_reset_policy noKeys envAllFail mediumAnalysis 3).1, by decide,
   ((emergency_reset_policy noKeys envAllFail mediumAnalysis 3).2.2 (by decide)).1,
   ((emergency_reset_policy noKeys envAllFail mediumAnalysis 3).2.2 (by decide)).2,
   by decide⟩

/-- C9 amended: `route_and_execute` is total (never raises) and always
returns a structured result with `success` and `tried_apis`; `content`,
`api_used` and `model` are present iff `success` is true, `error` is present
iff `success` is false, and `attempts_made` is present in every result except
the all-APIs-exhausted failure, whose error string carries the attempt count
instead. -/
theorem route_result_shape (keys : String → Bool) (env : RouteEnv)
    (analysis : ChunkAnalysis) (emergency_mode : Bool) (max_retries : Nat) :
    ((route_and_execute keys env analysis emergency_mode max_retries).1.success = true →
      (route_and_execute keys env analysis emergency_mode max_retries).1.content.isSome ∧
      (route_and_execute keys env analysis emergency_mode max_retries).1.api_used.isSome ∧
      (route_and_execute keys env analysis emergency_mode max_retries).1.model.isSome ∧
      (route_and_execute keys env analysis emergency_mode max_retries).1.error = none ∧
      ((route_and_execute keys env analysis emergency_mode max_retries).1.attempts_made).isSome) ∧
    ((route_and_execute keys env analysis emergency_mode max_retries).1.success = false →
      ((route_and_execute keys env analysis emergency_mode max_retries).1.error).isSome ∧
      (route_and_execute keys env analysis emergency_mode max_retries).1.content = none ∧
      (route_and_execute keys env analysis emergency_mode max_retries).1.api_used = none ∧
      (route_and_execute keys env analysis emergency_mode max_retries).1.model = none) ∧
    ((route_and_execute keys env analysis emergency_mode max_retries).1.attempts_made = none →
      (route_and_execute keys env analysis emergency_mode max_retries).1.success = false ∧
      inStr "All APIs exhausted"
        (((route_and_execute keys env analysis emergency_mode max_retries).1.error).getD "")
        = true) := by
  obtain ⟨-, -, -, -, h5, h6, h7⟩ := routeLoop_master keys env analysis max_retries
    (max_retries + apiNames.length + 1) 0 0 [] emergency_mode initialUsage []
    (Nat.zero_le _) List.nodup_nil (fun a ha => absurd ha (List.not_mem_nil _))
  exact ⟨h5, h6, h7⟩

/-- C9 counterexample: with no credentialed backend, `route_and_execute`
returns the all-APIs-exhausted failure, which contains NO `attempts_made`
key — refuting "always returns ... an integer attempts_made". -/
theorem route_missing_attempts_counterexample :
    (route_and_execute noKeys envAllFail mediumAnalysis false 3).1.success = false ∧
    (route_and_execute noKeys envAllFail mediumAnalysis false 3).1.attempts_made = none := by
  decide

unseal Rat.add Rat.mul Rat.inv Rat.sub in
/-- C2 counterexample: backend A = google_primary fails with
"500 internal server error" and backend B = groq then succeeds, but the
result has `attempts_made = 1`, not 2: `_should_retry_error` treats only
timeout/connection/network/502/503/504 as retryable, so a "500 internal
server error" does not consume a retry slot. -/
theorem route_500_counterexample :
    (route_and_execute twoKeys env500 mediumAnalysis false 3).1.attempts_made = some 1 ∧
    ¬((route_and_execute twoKeys env500 mediumAnalysis false 3).1.attempts_made = some 2) ∧
    (route_and_execute twoKeys env500 mediumAnalysis false 3).1.tried_apis
      = ["google_primary", "groq"] ∧
    (route_and_execute twoKeys env500 mediumAnalysis false 3).1.api_used = some "groq" := by
  decide

unseal Rat.add Rat.mul Rat.inv Rat.sub in
/-- C2 amended: within one `route_and_execute` call, a failed attempt whose
error matches the transient keywords timeout/connection/network/502/503/504
(and does not match a quota keyword) increments `attempt_count`, consuming a
retry slot; a failed attempt matching a quota/rate-limit keyword, or one
matching neither list — which includes authentication errors and
"500 internal server error" — does not increment `attempt_count` and moves
directly to a different backend.  With backends A = google_primary and
B = groq: the timeout scenario ends with `attempts_made = 2`,
`tried_apis = [A, B]`; the "500 internal server error" scenario and the
"insufficient_quota" scenario end with `attempts_made = 1`,
`tried_apis = [A, B]`. -/
theorem retry_classification_and_scenarios :
    (∀ msg : String, anyKeyword retrySwitchKeywords (pyLower msg) = true →
      should_retry_error msg = false) ∧
    (∀ msg : String, anyKeyword retrySwitchKeywords (pyLower msg) = false →
      anyKeyword retrySameKeywords (pyLower msg) = true →
      should_retry_error msg = true) ∧
    (∀ msg : String, anyKeyword retrySwitchKeywords (pyLower msg) = false →
      anyKeyword retrySameKeywords (pyLower msg) = false →
      should_retry_error msg = false) ∧
    should_retry_error "500 internal server error" = false ∧
    (route_and_execute twoKeys envTimeout mediumAnalysis false 3).1.attempts_made
      = some 2 ∧
    (route_and_execute twoKeys envTimeout mediumAnalysis false 3).1.tried_apis
      = ["google_primary", "groq"] ∧
    (route_and_execute twoKeys envTimeout mediumAnalysis false 3).1.api_used
      = some "groq" ∧
    (route_and_execute twoKeys env500 mediumAnalysis false 3).1.attempts_made
      = some 1 ∧
    (route_and_execute twoKeys envQuota mediumAnalysis false 3).1.attempts_made
      = some 1 ∧
    (route_and_execute twoKeys envQuota mediumAnalysis false 3).1.tried_apis
      = ["google_primary", "groq"] := by
  refine ⟨?_, ?_, ?_, by decide, by decide, by decide, by decide, by decide, by decide,
    by decide⟩
  · intro msg h
    by_cases he : msg = ""
    · subst he; rfl
    · have heb : (msg == "") = false := by
        cases hb : msg == ""
        · rfl
        · exact absurd (eq_of_beq hb) he
      simp [should_retry_error, heb, h]
  · intro msg h1 h2
    by_cases he : msg = ""
    · subst he
      exact absurd h2 (by decide)
    · have heb : (msg == "") = false := by
        cases hb : msg == ""
        · rfl
        · exact absurd (eq_of_beq hb) he
      simp [should_retry_error, heb, h1, h2]
  · intro msg h1 h2
    by_cases he : msg = ""
    · subst he; rfl
    · have heb : (msg == "") = false := by
        cases hb : msg == ""
        · rfl
        · exact absurd (eq_of_beq hb) he
      simp [should_retry_error, heb, h1, h2]

theorem retry_classification_witness :
    anyKeyword retrySwitchKeywords (pyLower "User has insufficient_quota left") = true ∧
    should_retry_error "User has insufficient_quota left" = false ∧
    anyKeyword retrySwitchKeywords (pyLower "Connection reset by peer") = false ∧
    anyKeyword retrySameKeywords (pyLower "Connection reset by peer") = true ∧
    should_retry_error "Connection reset by peer" = true :=
  ⟨by decide, retry_classification_and_scenarios.1 "User has insufficient_quota left" (by decide),
   by decide, by decide,
   retry_classification_and_scenarios.2.1 "Connection reset by peer" (by decide) (by decide)⟩

/-! ### Fuel adequacy of the loop embedding -/

theorem length_filter_lt_of_flip {l : List String} {p q : String → Bool} {x : String}
    (hx : x ∈ l) (hpq : ∀ a ∈ l, q a = true → p a = true)
    (hqx : q x = false) (hpx : p x = true) :
    (l.filter q).length < (l.filter p).length := by
  induction l with
  | nil => cases hx
  | cons b rest ih =>
    rw [List.filter_cons, List.filter_cons]
    rcases List.mem_cons.mp hx with hbx | hx2
    · subst hbx
      simp only [hqx, hpx, Bool.false_eq_true, if_false, if_true, List.length_cons]
      have hmono : (rest.filter q).length ≤ (rest.filter p).length := by
        rw [← List.countP_eq_length_filter, ← List.countP_eq_length_filter]
        exact List.countP_mono_left
          (fun a ha hq => hpq a (List.mem_cons_of_mem _ ha) hq)
      exact Nat.lt_succ_of_le hmono
    · by_cases hqb : q b = true
      · rw [hqb, hpq b (List.mem_cons_self b rest) hqb]
        simp only [if_true, List.length_cons]
        exact Nat.succ_lt_succ
          (ih hx2 (fun a ha hq => hpq a (List.mem_cons_of_mem _ ha) hq))
      · have hqbf : q b = false := by
          cases hqbv : q b with
          | false => rfl
          | true => exact absurd hqbv hqb
        rw [hqbf]
        simp only [Bool.false_eq_true, if_false]
        have hrest := ih hx2 (fun a ha hq => hpq a (List.mem_cons_of_mem _ ha) hq)
        by_cases hpb : p b = true
        · rw [hpb]
          simp only [if_true, List.length_cons]
          exact Nat.lt_succ_of_lt hrest
        · have hpbf : p b = false := by
            cases hpbv : p b with
            | false => rfl
            | true => exact absurd hpbv hpb
          rw [hpbf]
          simp only [Bool.false_eq_true, if_false]
          exact hrest

theorem routeLoop_fuel_eq (keys : String → Bool) (env : RouteEnv)
    (analysis : ChunkAnalysis) (max_retries : Nat) :
    ∀ (fuel fuel2 k ac : Nat) (tried : List String) (em : Bool)
      (m : UsageStatsMap) (trace : List RouteEvent),
      max_retries - ac + (apiNames.filter (fun a => !(tried.contains a))).length < fuel →
      max_retries - ac + (apiNames.filter (fun a => !(tried.contains a))).length < fuel2 →
      routeLoop keys env analysis max_retries fuel k ac tried em m trace
        = routeLoop keys env analysis max_retries fuel2 k ac tried em m trace := by
  intro fuel
  induction fuel with
  | zero => intro fuel2 k ac tried em m trace h1 h2; omega
  | succ fuel ih =>
    intro fuel2 k ac tried em m trace h1 h2
    cases fuel2 with
    | zero => omega
    | succ fuel2 =>
      simp only [routeLoop]
      by_cases hlt : ac < max_retries
      case neg => rw [if_neg hlt, if_neg hlt]
      rw [if_pos hlt, if_pos hlt]
      rcases hRe : refreshRemaining keys (env.tick k) tried em m with
        ⟨remaining, em2, m2, didReset⟩
      have hmem : ∀ a ∈ remaining, a ∈ apiNames ∧ a ∉ tried := by
        intro a ha
        exact refreshRemaining_mem keys (env.tick k) tried em m a (by rw [hRe]; exact ha)
      dsimp only
      by_cases hremp : remaining.isEmpty = true
      · rw [if_pos hremp, if_pos hremp]
      · rw [if_neg hremp, if_neg hremp]
        have hrempF : remaining.isEmpty = false := by
          cases h3 : remaining.isEmpty with
          | false => rfl
          | true => exact absurd h3 hremp
        obtain ⟨selected, hsel⟩ :=
          select_best_isSome m2 (env.tick k) remaining analysis hrempF
        simp only [hsel]
        obtain ⟨hselapi, hselnt⟩ :=
          hmem selected (select_best_mem m2 (env.tick k) remaining analysis selected hsel)
        have hu : (apiNames.filter (fun a => !((tried ++ [selected]).contains a))).length
            < (apiNames.filter (fun a => !(tried.contains a))).length := by
          refine length_filter_lt_of_flip hselapi ?_ ?_ ?_
          · intro a ha hq
            revert hq
            simp only [Bool.not_eq_true']
            simp [List.elem_iff, List.mem_append]
            intro hq1 hq2
            exact hq1
          · simp [List.elem_iff, List.mem_append]
          · simp only [Bool.not_eq_true']
            simp [List.elem_iff]
            exact hselnt
        by_cases hsucc : (execResultOf selected (env.outcome k)).success = true
        · rw [if_pos hsucc, if_pos hsucc]
        · rw [if_neg hsucc, if_neg hsucc]
          by_cases hretry :
              should_retry_error ((execResultOf selected (env.outcome k)).error.getD "")
                = true
          · rw [if_pos hretry, if_pos hretry]
            exact ih fuel2 (k + 1) (ac + 1) (tried ++ [selected]) em2 _ _
              (by omega) (by omega)
          · rw [if_neg hretry, if_neg hretry]
            exact ih fuel2 (k + 1) ac (tried ++ [selected]) em2 _ _
              (by omega) (by omega)

/-- The fuel `route_and_execute` hands the loop is adequate: running the loop
with ANY fuel above the loop's termination measure gives the same result, so
the fuel parameter is an artifact of the embedding, not a semantic bound. -/
theorem route_and_execute_fuel_independent (keys : String → Bool) (env : RouteEnv)
    (analysis : ChunkAnalysis) (em : Bool) (max_retries fuel : Nat)
    (h : max_retries + apiNames.length < fuel) :
    routeLoop keys env analysis max_retries fuel 0 0 [] em initialUsage []
      = route_and_execute keys env analysis em max_retries := by
  apply routeLoop_fuel_eq keys env analysis max_retries fuel
    (max_retries + apiNames.length + 1) 0 0 [] em initialUsage []
  · have : (apiNames.filter (fun a => !(([] : List String).contains a))).length
        = apiNames.length := rfl
    rw [this]
    omega
  · have : (apiNames.filter (fun a => !(([] : List String).contains a))).length
        = apiNames.length := rfl
    rw [this]
    omega

end RoutingEngine
